import Mathlib

/-!
Shallow embedding of the shopping-cart repository layer (`internal/repo`,
entities from `internal/cart`, product handling from `internal/api`).

The persistent store is modelled as lists of cart and cart-item rows with
auto-incremented primary keys.  GORM's `First` becomes `List.find?`,
`Save`/`Update` become maps over the row lists keyed the way the SQL
`WHERE` clauses are keyed, `Delete` becomes a filter, and a transaction
that returns an error leaves the store unchanged (`runTx`).  Monetary
amounts are modelled as rationals, quantities as integers (Go `int`).
-/

namespace CartModel

/-- Status constant from `internal/cart/cart.go`. -/
def StatusOpen : String := "open"

/-- Status constant from `internal/cart/cart.go`. -/
def StatusClosed : String := "closed"

/-- A `Cart` row: id, session identifier, status, stored total. -/
structure Cart where
  id : Nat
  sessionID : String
  status : String
  total : ℚ
deriving DecidableEq

/-- A `CartItem` row: id, owning cart id, product name, quantity, unit price. -/
structure CartItem where
  id : Nat
  cartID : Nat
  productName : String
  quantity : Int
  price : ℚ
deriving DecidableEq

/-- The database state: the cart and item tables plus auto-increment counters. -/
structure Store where
  carts : List Cart
  items : List CartItem
  nextCartID : Nat
  nextItemID : Nat
deriving DecidableEq

/-- The empty database (auto-increment counters start at 1, as in MySQL). -/
def emptyStore : Store := ⟨[], [], 1, 1⟩

/-- `tx.First(&cart, cartID)`: first cart row with the given primary key. -/
def findCart (s : Store) (cartID : Nat) : Option Cart :=
  s.carts.find? (fun c => c.id == cartID)

/-- `Where("session_id = ? AND status = ?", sessionID, StatusOpen).First`. -/
def findOpenCartBySession (s : Store) (sessionID : String) : Option Cart :=
  s.carts.find? (fun c => c.sessionID == sessionID && c.status == StatusOpen)

/-- `Where("cart_id = ? AND product_name = ?", cartID, productName).First`. -/
def findItemByProduct (s : Store) (cartID : Nat) (productName : String) : Option CartItem :=
  s.items.find? (fun i => i.cartID == cartID && i.productName == productName)

/-- `Where("cart_id = ? AND id = ?", cartID, itemID).First`. -/
def findItem (s : Store) (cartID : Nat) (itemID : Nat) : Option CartItem :=
  s.items.find? (fun i => i.cartID == cartID && i.id == itemID)

/-- `COALESCE(SUM(price * quantity), 0)` over the items of one cart. -/
def cartTotalSum (s : Store) (cartID : Nat) : ℚ :=
  ((s.items.filter (fun i => i.cartID == cartID)).map
    (fun i => i.price * (i.quantity : ℚ))).sum

/-- `updateCartTotal`: recompute the sum and persist it on the cart row
(`Where("id = ?", cartID).Update("total", total)`). -/
def updateCartTotal (s : Store) (cartID : Nat) : Store :=
  { s with carts := (s.carts.map
      (fun c => if c.id == cartID then { c with total := cartTotalSum s cartID } else c)) }

/-- `r.db.Create(&userCart)`: insert a fresh open cart for the session with
a new primary key; `Total` keeps its Go zero value. -/
def createCart (s : Store) (sessionID : String) : Store × Cart :=
  let c : Cart :=
    { id := s.nextCartID, sessionID := sessionID, status := StatusOpen, total := 0 }
  ({ s with carts := s.carts ++ [c], nextCartID := s.nextCartID + 1 }, c)

/-- `GetOrCreateCart`: find the open cart for the session, or create one
with status `open` and zero total (the Go zero value for `Total`). -/
def GetOrCreateCart (s : Store) (sessionID : String) : Store × Cart :=
  match findOpenCartBySession s sessionID with
  | some c => (s, c)
  | none => createCart s sessionID

/-- `tx.Save(&existingItem)`: update the item row with the given primary key. -/
def saveItem (s : Store) (it : CartItem) : Store :=
  { s with items := s.items.map (fun i => if i.id == it.id then it else i) }

/-- `tx.Create(&item)`: insert a new item row with a fresh primary key. -/
def createItem (s : Store) (cartID : Nat) (productName : String)
    (quantity : Int) (price : ℚ) : Store :=
  { s with
    items := (s.items ++
      [{ id := s.nextItemID, cartID := cartID, productName := productName,
         quantity := quantity, price := price }]),
    nextItemID := s.nextItemID + 1 }

/-- `tx.Delete(&item)`: delete the item row with the given primary key. -/
def deleteItem (s : Store) (itemID : Nat) : Store :=
  { s with items := s.items.filter (fun i => !(i.id == itemID)) }

/-- `AddCartItem`: the transaction body of `Repository.AddCartItem`. -/
def AddCartItem (s : Store) (cartID : Nat) (productName : String)
    (quantity : Int) (price : ℚ) : Except String Store :=
  match findCart s cartID with
  | none => .error "cart not found"
  | some cart =>
    if cart.status ≠ StatusOpen then
      .error "cannot add items to a closed cart"
    else
      match findItemByProduct s cartID productName with
      | some existingItem =>
        .ok (updateCartTotal
          (saveItem s { existingItem with quantity := existingItem.quantity + quantity })
          cartID)
      | none =>
        .ok (updateCartTotal (createItem s cartID productName quantity price) cartID)

/-- `RemoveCartItem`: the transaction body of `Repository.RemoveCartItem`. -/
def RemoveCartItem (s : Store) (cartID : Nat) (itemID : Nat) : Except String Store :=
  match findCart s cartID with
  | none => .error "cart not found"
  | some cart =>
    if cart.status ≠ StatusOpen then
      .error "cannot remove items from a closed cart"
    else
      match findItem s cartID itemID with
      | none => .error "item not found"
      | some item => .ok (updateCartTotal (deleteItem s item.id) cartID)

/-- `db.Transaction`: an error rolls the store back to its pre-transaction state. -/
def runTx (s : Store) (r : Except String Store) : Store :=
  match r with
  | .ok s1 => s1
  | .error _ => s

/-- `Repository.AddCartItem` as a whole: transaction body plus rollback. -/
def runAddCartItem (s : Store) (cartID : Nat) (productName : String)
    (quantity : Int) (price : ℚ) : Store :=
  runTx s (AddCartItem s cartID productName quantity price)

/-- `Repository.RemoveCartItem` as a whole: transaction body plus rollback. -/
def runRemoveCartItem (s : Store) (cartID : Nat) (itemID : Nat) : Store :=
  runTx s (RemoveCartItem s cartID itemID)

/-- `Repository.GetCartItem`: point lookup scoped to the owning cart. -/
def GetCartItem (s : Store) (cartID : Nat) (itemID : Nat) : Option CartItem :=
  findItem s cartID itemID

end CartModel

namespace CartModel

/-! ## HTTP layer: product-name sanitisation and the fixed catalog
(`internal/api/api.go`). -/

/-- Character class kept verbatim by `sanitizeProductName`. -/
def keepChar (c : Char) : Bool :=
  ('a' ≤ c && c ≤ 'z') || ('0' ≤ c && c ≤ '9') || c == '_'

/-- Character class lowercased by `sanitizeProductName`. -/
def upperChar (c : Char) : Bool :=
  'A' ≤ c && c ≤ 'Z'

/-- One loop iteration of `sanitizeProductName` (`sanitized += ...`). -/
def sanitizeStep (acc : String) (c : Char) : String :=
  if keepChar c then acc.push c
  else if upperChar c then acc.push (Char.ofNat (c.toNat + 32))
  else acc

/-- `sanitizeProductName`: lowercase and keep only `[a-z0-9_]`. -/
def sanitizeProductName (name : String) : String :=
  name.data.foldl sanitizeStep ""

/-- Per-character effect of sanitisation, as the spec words it: keep
`[a-z0-9_]`, lowercase `A`–`Z`, drop everything else. -/
def sanitizeChar (c : Char) : Option Char :=
  if keepChar c then some c
  else if upperChar c then some (Char.ofNat (c.toNat + 32))
  else none

/-- Spec-level form of the sanitiser: a character-wise `filterMap`. -/
def sanitizeCharsSpec (name : String) : String :=
  String.mk (name.data.filterMap sanitizeChar)

/-- `isValidProduct`: membership in the fixed four-product set. -/
def isValidProduct (name : String) : Bool :=
  name == "shoe" || name == "purse" || name == "bag" || name == "watch"

/-- The `defaultPrices` map of `NewCartHandler`. -/
def productPrices : List (String × ℚ) :=
  [("shoe", 10), ("purse", 20), ("bag", 30), ("watch", 40)]

/-- `CartHandler.GetProductPrice`: map lookup, error when absent. -/
def GetProductPrice (name : String) : Except String ℚ :=
  match productPrices.lookup name with
  | some price => .ok price
  | none => .error "product not found"

/-- The product-validation pipeline of the `AddItem` handler: sanitise,
reject empty, reject names outside the catalog, then price lookup.
Returns the sanitised name and unit price used for the add, or `none`
when the request is rejected with a flashed error. -/
def handlerProductPrice (raw : String) : Option (String × ℚ) :=
  let product := sanitizeProductName raw
  if product = "" then none
  else if ¬ (isValidProduct product = true) then none
  else
    match GetProductPrice product with
    | .ok price => some (product, price)
    | .error _ => none

end CartModel

namespace CartModel

/-! ## Invariants and reachability -/

/-- Every cart row has status `open`. -/
def AllOpen (s : Store) : Prop :=
  ∀ c ∈ s.carts, c.status = StatusOpen

/-- The item-table invariant: every quantity is at least 1, product names
are unique within a cart, and primary keys are unique and below the
auto-increment counter. -/
def ItemsOK (s : Store) : Prop :=
  (∀ i ∈ s.items, 1 ≤ i.quantity) ∧
  s.items.Pairwise (fun a b => ¬(a.cartID = b.cartID ∧ a.productName = b.productName)) ∧
  (s.items.map (fun i => i.id)).Nodup ∧
  (∀ i ∈ s.items, i.id < s.nextItemID)

/-- Stores reachable from the empty database through the repository's
public operations. -/
inductive Reachable : Store → Prop where
  | init : Reachable emptyStore
  | getOrCreate (s : Store) (sid : String) :
      Reachable s → Reachable (GetOrCreateCart s sid).1
  | add (s : Store) (cid : Nat) (pn : String) (q : Int) (p : ℚ) :
      Reachable s → Reachable (runAddCartItem s cid pn q p)
  | remove (s : Store) (cid iid : Nat) :
      Reachable s → Reachable (runRemoveCartItem s cid iid)

end CartModel

namespace CartModel

/-! ## Concrete fixtures used to exercise the theorems. -/

/-- A store holding one open cart (id 1) for session `s` and no items. -/
def storeOneCart : Store :=
  ⟨[⟨1, "s", StatusOpen, 0⟩], [], 2, 1⟩

/-- `storeOneCart` after adding two shoes at unit price 10. -/
def storeShoes2 : Store :=
  ⟨[⟨1, "s", StatusOpen, 20⟩], [⟨1, 1, "shoe", 2, 10⟩], 2, 2⟩

/-- `storeShoes2` after adding three more shoes (price argument discarded). -/
def storeShoes5 : Store :=
  ⟨[⟨1, "s", StatusOpen, 50⟩], [⟨1, 1, "shoe", 5, 10⟩], 2, 2⟩

/-- A store with two open carts, the second one owning item 7. -/
def storeTwoCarts : Store :=
  ⟨[⟨1, "s", StatusOpen, 0⟩, ⟨2, "t", StatusOpen, 40⟩],
   [⟨7, 2, "watch", 1, 40⟩], 3, 8⟩

end CartModel

namespace CartModel

/-! ## Sanity checks on concrete inputs (mirroring `repo_test.go`). -/

deriving instance DecidableEq for Except

example :
    (GetOrCreateCart emptyStore "test-session-1").2.status = StatusOpen := by
  decide

example :
    AddCartItem (GetOrCreateCart emptyStore "s").1 1 "test-product" 1 10 =
      .ok { carts := [⟨1, "s", "open", 10⟩],
            items := [⟨1, 1, "test-product", 1, 10⟩],
            nextCartID := 2, nextItemID := 2 } := by
  norm_num [AddCartItem, GetOrCreateCart, findOpenCartBySession, emptyStore, findCart,
    findItemByProduct, createItem, createCart, saveItem, updateCartTotal, cartTotalSum,
    StatusOpen]

example : sanitizeProductName "Shoe!" = "shoe" := by decide

example : handlerProductPrice "WATCH" = some ("watch", 40) := by decide

end CartModel

namespace CartModel

/-! ## Helper lemmas -/

/-- If filtering a list leaves a single element, `find?` with the same
predicate returns that element. -/
theorem find_of_filter_singleton {α : Type} (p : α → Bool) (l : List α) (a : α)
    (h : l.filter p = [a]) : l.find? p = some a := by
  induction l with
  | nil => simp at h
  | cons hd tl ih =>
    by_cases hp : p hd
    · rw [List.filter_cons_of_pos hp] at h
      rw [List.find?_cons_of_pos _ hp]
      simp only [List.cons.injEq] at h
      exact congrArg some h.1
    · rw [List.filter_cons_of_neg hp] at h
      rw [List.find?_cons_of_neg _ hp]
      exact ih h

/-- `updateCartTotal` does not touch the item table or the counters. -/
theorem updateCartTotal_items (s : Store) (cartID : Nat) :
    (updateCartTotal s cartID).items = s.items := rfl

/-- The item sum is unaffected by `updateCartTotal`. -/
theorem cartTotalSum_updateCartTotal (s : Store) (cid cid' : Nat) :
    cartTotalSum (updateCartTotal s cid) cid' = cartTotalSum s cid' := rfl

/-- After `updateCartTotal s cid`, every cart row with id `cid` stores the
item sum of cart `cid` computed over the (unchanged) item table. -/
theorem updateCartTotal_total (s : Store) (cid : Nat) :
    ∀ c ∈ (updateCartTotal s cid).carts, c.id = cid →
      c.total = cartTotalSum (updateCartTotal s cid) cid := by
  intro c hc hid
  rw [updateCartTotal] at hc
  simp only [List.mem_map] at hc
  obtain ⟨c0, _, hc0⟩ := hc
  by_cases h0 : c0.id = cid
  · rw [if_pos (by simpa using h0)] at hc0
    rw [← hc0, cartTotalSum_updateCartTotal]
  · rw [if_neg (by simpa using h0)] at hc0
    rw [← hc0] at hid
    exact absurd hid h0

end CartModel

namespace CartModel

/-- C3: `AddItem` on a cart identifier that matches no existing cart fails
with the not-found error and leaves the store unchanged (the transaction
rolls back, so no item is created and no total is touched). -/
theorem addCartItem_nonexistent_cart (s : Store) (cartID : Nat) (productName : String)
    (quantity : Int) (price : ℚ)
    (h : ∀ c ∈ s.carts, c.id ≠ cartID) :
    AddCartItem s cartID productName quantity price = .error "cart not found" ∧
    runAddCartItem s cartID productName quantity price = s := by
  have hf : findCart s cartID = none := by
    rw [findCart, List.find?_eq_none]
    intro c hc
    simpa using h c hc
  have he : AddCartItem s cartID productName quantity price = .error "cart not found" := by
    rw [AddCartItem, hf]
  exact ⟨he, by rw [runAddCartItem, he, runTx]⟩

/-- Witness for C3 at the empty store. -/
theorem addCartItem_nonexistent_cart_witness :
    AddCartItem emptyStore 1 "shoe" 1 10 = .error "cart not found" ∧
    runAddCartItem emptyStore 1 "shoe" 1 10 = emptyStore :=
  addCartItem_nonexistent_cart emptyStore 1 "shoe" 1 10 (by decide)

/-- C5: `GetOrCreateCart` is stable: called twice for the same session with
no intervening operation it returns the same cart identifier; and when the
store has no open cart for the session, the returned cart is freshly
created with status `open`, total zero, and is present in the new store. -/
theorem getOrCreateCart_stable (s : Store) (sid : String) :
    (GetOrCreateCart (GetOrCreateCart s sid).1 sid).2.id = (GetOrCreateCart s sid).2.id ∧
    ((∀ c ∈ s.carts, ¬(c.sessionID = sid ∧ c.status = StatusOpen)) →
      (GetOrCreateCart s sid).2.status = StatusOpen ∧
      (GetOrCreateCart s sid).2.total = 0 ∧
      (GetOrCreateCart s sid).2 ∈ (GetOrCreateCart s sid).1.carts) := by
  constructor
  · cases hf : findOpenCartBySession s sid with
    | some c =>
      have h1 : GetOrCreateCart s sid = (s, c) := by rw [GetOrCreateCart, hf]
      rw [h1]
      show (GetOrCreateCart s sid).2.id = c.id
      rw [h1]
    | none =>
      have h1 : GetOrCreateCart s sid = createCart s sid := by rw [GetOrCreateCart, hf]
      have hf2 : findOpenCartBySession (createCart s sid).1 sid =
          some (createCart s sid).2 := by
        have hcarts : (createCart s sid).1.carts = s.carts ++ [(createCart s sid).2] := rfl
        rw [findOpenCartBySession, hcarts, List.find?_append]
        rw [findOpenCartBySession] at hf
        rw [hf]
        simp [createCart, StatusOpen]
      have h2 : GetOrCreateCart (createCart s sid).1 sid =
          ((createCart s sid).1, (createCart s sid).2) := by
        rw [GetOrCreateCart, hf2]
      rw [h1, h2]
  · intro h
    have hf : findOpenCartBySession s sid = none := by
      rw [findOpenCartBySession, List.find?_eq_none]
      intro c hc
      intro hp
      simp only [Bool.and_eq_true, beq_iff_eq] at hp
      exact h c hc hp
    have h1 : GetOrCreateCart s sid = createCart s sid := by rw [GetOrCreateCart, hf]
    rw [h1]
    refine ⟨rfl, rfl, ?_⟩
    simp [createCart]

/-- Witness for C5 at the empty store with session `abc`. -/
theorem getOrCreateCart_stable_witness :
    ((GetOrCreateCart (GetOrCreateCart emptyStore "abc").1 "abc").2.id =
      (GetOrCreateCart emptyStore "abc").2.id) ∧
    ((GetOrCreateCart emptyStore "abc").2.status = StatusOpen ∧
      (GetOrCreateCart emptyStore "abc").2.total = 0 ∧
      (GetOrCreateCart emptyStore "abc").2 ∈ (GetOrCreateCart emptyStore "abc").1.carts) :=
  ⟨(getOrCreateCart_stable emptyStore "abc").1,
   (getOrCreateCart_stable emptyStore "abc").2 (by decide)⟩

end CartModel

namespace CartModel

/-- Full specification of `updateCartTotal` for the target cart: the stored
total equals the item sum, and is zero when the cart has no items. -/
theorem updateCartTotal_spec (t : Store) (cid : Nat) :
    ∀ c ∈ (updateCartTotal t cid).carts, c.id = cid →
      c.total = cartTotalSum (updateCartTotal t cid) cid ∧
      ((updateCartTotal t cid).items.filter (fun i => i.cartID == cid) = [] →
        c.total = 0) := by
  intro c hc hid
  have h1 := updateCartTotal_total t cid c hc hid
  refine ⟨h1, fun hnil => ?_⟩
  rw [h1, cartTotalSum, hnil]
  simp

/-- Sanity: the two-shoes fixture is what `AddCartItem` produces. -/
theorem storeShoes2_eq :
    AddCartItem storeOneCart 1 "shoe" 2 10 = .ok storeShoes2 := by
  norm_num [AddCartItem, storeOneCart, storeShoes2, findCart, findItemByProduct,
    createItem, updateCartTotal, cartTotalSum, StatusOpen]

/-- C1: after any successfully completed `AddCartItem` or `RemoveCartItem`,
the mutated cart's stored total equals the sum of price × quantity over the
cart's current items, and is zero when the cart has no items. -/
theorem cartTotal_after_mutation (s : Store) (cid : Nat) (pn : String)
    (q : Int) (p : ℚ) (iid : Nat) :
    (∀ s1, AddCartItem s cid pn q p = .ok s1 →
      ∀ c ∈ s1.carts, c.id = cid →
        c.total = cartTotalSum s1 cid ∧
        (s1.items.filter (fun i => i.cartID == cid) = [] → c.total = 0)) ∧
    (∀ s1, RemoveCartItem s cid iid = .ok s1 →
      ∀ c ∈ s1.carts, c.id = cid →
        c.total = cartTotalSum s1 cid ∧
        (s1.items.filter (fun i => i.cartID == cid) = [] → c.total = 0)) := by
  constructor
  · intro s1 hok
    rw [AddCartItem] at hok
    split at hok
    · exact absurd hok (by simp)
    · split at hok
      · exact absurd hok (by simp)
      · split at hok
        · simp only [Except.ok.injEq] at hok
          rw [← hok]
          exact updateCartTotal_spec _ cid
        · simp only [Except.ok.injEq] at hok
          rw [← hok]
          exact updateCartTotal_spec _ cid
  · intro s1 hok
    rw [RemoveCartItem] at hok
    split at hok
    · exact absurd hok (by simp)
    · split at hok
      · exact absurd hok (by simp)
      · split at hok
        · exact absurd hok (by simp)
        · simp only [Except.ok.injEq] at hok
          rw [← hok]
          exact updateCartTotal_spec _ cid

/-- Witness for C1: adding two shoes at price 10 to the one-cart fixture
stores total 20, which is the item sum of the resulting store. -/
theorem cartTotal_after_mutation_witness :
    (⟨1, "s", StatusOpen, 20⟩ : Cart).total = cartTotalSum storeShoes2 1 :=
  ((cartTotal_after_mutation storeOneCart 1 "shoe" 2 10 0).1 storeShoes2
    storeShoes2_eq ⟨1, "s", StatusOpen, 20⟩ (by simp [storeShoes2]) rfl).1

end CartModel

namespace CartModel

/-! ## Sanitiser lemmas -/

/-- A valid scalar value below the surrogate range round-trips through
`Char.ofNat`. -/
theorem toNat_ofNat_of_lt (n : Nat) (h : n < 55296) :
    (Char.ofNat n).toNat = n := by
  rw [Char.ofNat, dif_pos (Or.inl h)]
  rfl

/-- Uppercase letters lie in the scalar range 65–90. -/
theorem upperChar_toNat (c : Char) (h : upperChar c = true) :
    65 ≤ c.toNat ∧ c.toNat ≤ 90 := by
  rw [upperChar, Bool.and_eq_true, decide_eq_true_eq, decide_eq_true_eq] at h
  exact ⟨h.1, h.2⟩

/-- Lowercasing an uppercase letter lands in the kept character class. -/
theorem keepChar_ofNat_lower (c : Char) (h : upperChar c = true) :
    keepChar (Char.ofNat (c.toNat + 32)) = true := by
  obtain ⟨hA, hZ⟩ := upperChar_toNat c h
  have hv : c.toNat + 32 < 55296 := by omega
  have ht : (Char.ofNat (c.toNat + 32)).toNat = c.toNat + 32 :=
    toNat_ofNat_of_lt _ hv
  have hlo : 'a' ≤ Char.ofNat (c.toNat + 32) := by
    show (97 : Nat) ≤ (Char.ofNat (c.toNat + 32)).toNat
    rw [ht]
    omega
  have hhi : Char.ofNat (c.toNat + 32) ≤ 'z' := by
    show (Char.ofNat (c.toNat + 32)).toNat ≤ (122 : Nat)
    rw [ht]
    omega
  rw [keepChar]
  simp [hlo, hhi]

/-- Every character emitted by `sanitizeChar` is in the kept class. -/
theorem sanitizeChar_keep (c c' : Char) (h : sanitizeChar c = some c') :
    keepChar c' = true := by
  rw [sanitizeChar] at h
  by_cases hk : keepChar c = true
  · rw [if_pos hk] at h
    cases h
    exact hk
  · rw [if_neg hk] at h
    by_cases hu : upperChar c = true
    · rw [if_pos hu] at h
      cases h
      exact keepChar_ofNat_lower c hu
    · rw [if_neg hu] at h
      cases h

/-- `sanitizeChar` keeps a character of the kept class unchanged. -/
theorem sanitizeChar_of_keep (c : Char) (h : keepChar c = true) :
    sanitizeChar c = some c := by
  rw [sanitizeChar, if_pos h]

/-- The sanitiser loop accumulates exactly the character-wise `filterMap`. -/
theorem foldl_sanitizeStep (l : List Char) (acc : String) :
    l.foldl sanitizeStep acc = String.mk (acc.data ++ l.filterMap sanitizeChar) := by
  induction l generalizing acc with
  | nil => simp
  | cons hd tl ih =>
    rw [List.foldl_cons, List.filterMap_cons]
    by_cases hk : keepChar hd = true
    · rw [sanitizeChar_of_keep hd hk]
      have hstep : sanitizeStep acc hd = acc.push hd := by
        rw [sanitizeStep, if_pos hk]
      rw [hstep, ih]
      simp [String.push]
    · by_cases hu : upperChar hd = true
      · have hsc : sanitizeChar hd = some (Char.ofNat (hd.toNat + 32)) := by
          rw [sanitizeChar, if_neg hk, if_pos hu]
        rw [hsc]
        have hstep : sanitizeStep acc hd = acc.push (Char.ofNat (hd.toNat + 32)) := by
          rw [sanitizeStep, if_neg hk, if_pos hu]
        rw [hstep, ih]
        simp [String.push]
      · have hsc : sanitizeChar hd = none := by
          rw [sanitizeChar, if_neg hk, if_neg hu]
        rw [hsc]
        have hstep : sanitizeStep acc hd = acc := by
          rw [sanitizeStep, if_neg hk, if_neg hu]
        rw [hstep, ih]

/-- The loop of `sanitizeProductName` equals its character-wise description. -/
theorem sanitizeProductName_eq_spec (name : String) :
    sanitizeProductName name = sanitizeCharsSpec name := by
  rw [sanitizeProductName, sanitizeCharsSpec, foldl_sanitizeStep]
  rfl

/-- `filterMap sanitizeChar` fixes lists of kept characters. -/
theorem filterMap_sanitizeChar_of_keep (l : List Char)
    (h : ∀ c ∈ l, keepChar c = true) : l.filterMap sanitizeChar = l := by
  induction l with
  | nil => rfl
  | cons hd tl ih =>
    rw [List.filterMap_cons, sanitizeChar_of_keep hd (h hd (by simp))]
    rw [ih (fun c hc => h c (by simp [hc]))]

end CartModel

namespace CartModel

/-- C9: `sanitizeProductName` is idempotent, and every character of its
output is in the class `[a-z0-9_]` (`keepChar`). -/
theorem sanitizeProductName_idempotent (s : String) :
    sanitizeProductName (sanitizeProductName s) = sanitizeProductName s ∧
    ∀ c ∈ (sanitizeProductName s).data, keepChar c = true := by
  have hchars : ∀ c ∈ (sanitizeProductName s).data, keepChar c = true := by
    intro c hc
    rw [sanitizeProductName_eq_spec, sanitizeCharsSpec] at hc
    simp only [List.mem_filterMap] at hc
    obtain ⟨c0, _, hc0⟩ := hc
    exact sanitizeChar_keep c0 c hc0
  refine ⟨?_, hchars⟩
  rw [sanitizeProductName_eq_spec (sanitizeProductName s), sanitizeCharsSpec]
  rw [filterMap_sanitizeChar_of_keep _ hchars]

/-- Witness for C9 on the input `Shoe!`. -/
theorem sanitizeProductName_idempotent_witness :
    sanitizeProductName (sanitizeProductName "Shoe!") = sanitizeProductName "Shoe!" ∧
    keepChar 's' = true :=
  ⟨(sanitizeProductName_idempotent "Shoe!").1,
   (sanitizeProductName_idempotent "Shoe!").2 's' (by decide)⟩

/-- C7: the `AddItem` handler sanitises the submitted product name
(lowercase, keep only `[a-z0-9_]`), and accepts it exactly when the
sanitised name is one of the four catalog entries, using that entry's
price; every other name is rejected. -/
theorem handler_catalog_gate (raw : String) :
    sanitizeProductName raw = sanitizeCharsSpec raw ∧
    (sanitizeProductName raw = "shoe" → handlerProductPrice raw = some ("shoe", 10)) ∧
    (sanitizeProductName raw = "purse" → handlerProductPrice raw = some ("purse", 20)) ∧
    (sanitizeProductName raw = "bag" → handlerProductPrice raw = some ("bag", 30)) ∧
    (sanitizeProductName raw = "watch" → handlerProductPrice raw = some ("watch", 40)) ∧
    (sanitizeProductName raw ≠ "shoe" → sanitizeProductName raw ≠ "purse" →
     sanitizeProductName raw ≠ "bag" → sanitizeProductName raw ≠ "watch" →
     handlerProductPrice raw = none) := by
  refine ⟨sanitizeProductName_eq_spec raw, ?_, ?_, ?_, ?_, ?_⟩
  · intro h
    rw [handlerProductPrice]
    simp only [h]
    rw [if_neg (by decide), if_neg (by decide)]
    rfl
  · intro h
    rw [handlerProductPrice]
    simp only [h]
    rw [if_neg (by decide), if_neg (by decide)]
    rfl
  · intro h
    rw [handlerProductPrice]
    simp only [h]
    rw [if_neg (by decide), if_neg (by decide)]
    rfl
  · intro h
    rw [handlerProductPrice]
    simp only [h]
    rw [if_neg (by decide), if_neg (by decide)]
    rfl
  · intro h1 h2 h3 h4
    rw [handlerProductPrice]
    by_cases he : sanitizeProductName raw = ""
    · simp only [he]
      simp
    · have hv : isValidProduct (sanitizeProductName raw) = false := by
        rw [isValidProduct]
        simp [h1, h2, h3, h4]
      rw [if_neg he, if_pos (by simp [hv])]

/-- Witness for C7 on the raw input `Shoe!`. -/
theorem handler_catalog_gate_witness :
    handlerProductPrice "Shoe!" = some ("shoe", 10) :=
  (handler_catalog_gate "Shoe!").2.1 (by decide)

end CartModel

namespace CartModel

/-- C4: `RemoveItem` fails with `cart not found` when no cart has the given
identifier, fails with the closed-cart error when the cart is not open, and
fails with `item not found` — leaving the whole store unchanged — when the
open cart exists but no item with the given identifier belongs to it. -/
theorem removeCartItem_errors (s : Store) (cid iid : Nat) :
    ((∀ c ∈ s.carts, c.id ≠ cid) →
      RemoveCartItem s cid iid = .error "cart not found") ∧
    (∀ cart, findCart s cid = some cart → cart.status ≠ StatusOpen →
      RemoveCartItem s cid iid = .error "cannot remove items from a closed cart") ∧
    (∀ cart, findCart s cid = some cart → cart.status = StatusOpen →
      findItem s cid iid = none →
      RemoveCartItem s cid iid = .error "item not found" ∧
      runRemoveCartItem s cid iid = s) := by
  refine ⟨?_, ?_, ?_⟩
  · intro h
    have hf : findCart s cid = none := by
      rw [findCart, List.find?_eq_none]
      intro c hc
      simpa using h c hc
    rw [RemoveCartItem, hf]
  · intro cart hfc hst
    rw [RemoveCartItem]
    simp only [hfc]
    rw [if_pos hst]
  · intro cart hfc hop hfi
    have herr : RemoveCartItem s cid iid = .error "item not found" := by
      rw [RemoveCartItem]
      simp only [hfc]
      rw [if_neg (by simp [hop, StatusOpen])]
      simp only [hfi]
    exact ⟨herr, by rw [runRemoveCartItem, herr, runTx]⟩

/-- Witness for C4: removing a nonexistent item from the one-cart fixture
fails and leaves the store unchanged. -/
theorem removeCartItem_errors_witness :
    RemoveCartItem storeOneCart 1 5 = .error "item not found" ∧
    runRemoveCartItem storeOneCart 1 5 = storeOneCart :=
  (removeCartItem_errors storeOneCart 1 5).2.2 ⟨1, "s", StatusOpen, 0⟩ rfl rfl rfl

end CartModel

namespace CartModel

/-! ## Status is never mutated: every reachable cart is open (C8) -/

/-- `updateCartTotal` changes totals only, never the status column. -/
theorem allOpen_updateCartTotal (t : Store) (cid : Nat) (h : AllOpen t) :
    AllOpen (updateCartTotal t cid) := by
  intro c hc
  rw [updateCartTotal] at hc
  simp only [List.mem_map] at hc
  obtain ⟨c0, hc0, heq⟩ := hc
  by_cases h0 : c0.id == cid
  · rw [if_pos h0] at heq
    rw [← heq]
    exact h c0 hc0
  · rw [if_neg h0] at heq
    rw [← heq]
    exact h c0 hc0

/-- A successful `AddCartItem` preserves open statuses. -/
theorem allOpen_addCartItem (t : Store) (cid : Nat) (pn : String) (q : Int)
    (p : ℚ) (s1 : Store) (hok : AddCartItem t cid pn q p = .ok s1)
    (h : AllOpen t) : AllOpen s1 := by
  rw [AddCartItem] at hok
  split at hok
  · exact absurd hok (by simp)
  · split at hok
    · exact absurd hok (by simp)
    · split at hok
      · simp only [Except.ok.injEq] at hok
        rw [← hok]
        exact allOpen_updateCartTotal _ cid (fun c hc => h c hc)
      · simp only [Except.ok.injEq] at hok
        rw [← hok]
        exact allOpen_updateCartTotal _ cid (fun c hc => h c hc)

/-- A successful `RemoveCartItem` preserves open statuses. -/
theorem allOpen_removeCartItem (t : Store) (cid iid : Nat) (s1 : Store)
    (hok : RemoveCartItem t cid iid = .ok s1) (h : AllOpen t) : AllOpen s1 := by
  rw [RemoveCartItem] at hok
  split at hok
  · exact absurd hok (by simp)
  · split at hok
    · exact absurd hok (by simp)
    · split at hok
      · exact absurd hok (by simp)
      · simp only [Except.ok.injEq] at hok
        rw [← hok]
        exact allOpen_updateCartTotal _ cid (fun c hc => h c hc)

/-- Every store reachable through the public operations has only open carts. -/
theorem reachable_allOpen (s : Store) (h : Reachable s) : AllOpen s := by
  induction h with
  | init =>
    intro c hc
    simp [emptyStore] at hc
  | getOrCreate t sid ht ih =>
    rw [GetOrCreateCart]
    cases hf : findOpenCartBySession t sid with
    | some c => exact ih
    | none =>
      intro c hc
      rw [createCart] at hc
      simp only [List.mem_append, List.mem_singleton] at hc
      cases hc with
      | inl hmem => exact ih c hmem
      | inr heq => rw [heq]
  | add t cid pn q p ht ih =>
    rw [runAddCartItem]
    cases hr : AddCartItem t cid pn q p with
    | error e => exact ih
    | ok s1 =>
      rw [runTx]
      exact allOpen_addCartItem t cid pn q p s1 hr ih
  | remove t cid iid ht ih =>
    rw [runRemoveCartItem]
    cases hr : RemoveCartItem t cid iid with
    | error e => exact ih
    | ok s1 =>
      rw [runTx]
      exact allOpen_removeCartItem t cid iid s1 hr ih

/-- C8: starting from the empty store, no reachable cart is ever `closed`:
every reachable cart has status `open`, and consequently the closed-cart
rejection branches of `AddCartItem` and `RemoveCartItem` are never taken. -/
theorem no_closed_cart (s : Store) (h : Reachable s) :
    (∀ c ∈ s.carts, c.status = StatusOpen) ∧
    (∀ cid pn q p, AddCartItem s cid pn q p ≠
      .error "cannot add items to a closed cart") ∧
    (∀ cid iid, RemoveCartItem s cid iid ≠
      .error "cannot remove items from a closed cart") := by
  have hopen : AllOpen s := reachable_allOpen s h
  refine ⟨hopen, ?_, ?_⟩
  · intro cid pn q p
    rw [AddCartItem]
    cases hfc : findCart s cid with
    | none => simp
    | some cart =>
      have hst : cart.status = StatusOpen :=
        hopen cart (List.mem_of_find?_eq_some hfc)
      simp only
      rw [if_neg (by simp [hst])]
      cases hfi : findItemByProduct s cid pn with
      | some it => simp
      | none => simp
  · intro cid iid
    rw [RemoveCartItem]
    cases hfc : findCart s cid with
    | none => simp
    | some cart =>
      have hst : cart.status = StatusOpen :=
        hopen cart (List.mem_of_find?_eq_some hfc)
      simp only
      rw [if_neg (by simp [hst])]
      cases hfi : findItem s cid iid with
      | none => simp
      | some it => simp

/-- Witness for C8: the empty store is reachable, and adding to cart 1
there does not hit the closed-cart branch. -/
theorem no_closed_cart_witness :
    AddCartItem emptyStore 1 "shoe" 1 10 ≠
      .error "cannot add items to a closed cart" :=
  (no_closed_cart emptyStore Reachable.init).2.1 1 "shoe" 1 10

end CartModel

namespace CartModel

/-! ## Primary-key splitting lemmas -/

/-- An item with a unique primary key splits its list into a prefix and a
suffix containing no row with that key. -/
theorem exists_split_of_mem_nodup (l : List CartItem) (it : CartItem)
    (hmem : it ∈ l) (hnd : (l.map (fun i => i.id)).Nodup) :
    ∃ l₁ l₂, l = l₁ ++ it :: l₂ ∧
      (∀ x ∈ l₁, x.id ≠ it.id) ∧ (∀ x ∈ l₂, x.id ≠ it.id) := by
  obtain ⟨l₁, l₂, rfl⟩ := List.append_of_mem hmem
  rw [List.map_append, List.map_cons, List.nodup_append] at hnd
  obtain ⟨h1, h2, hdisj⟩ := hnd
  rw [List.nodup_cons] at h2
  refine ⟨l₁, l₂, rfl, ?_, ?_⟩
  · intro x hx hid
    exact hdisj (List.mem_map_of_mem _ hx) (by simp [hid])
  · intro x hx hid
    exact h2.1 (hid ▸ List.mem_map_of_mem (fun i => i.id) hx)

/-- A keyed update leaves rows with other keys untouched. -/
theorem map_keep_of_ne (l : List CartItem) (it' : CartItem)
    (h : ∀ x ∈ l, x.id ≠ it'.id) :
    l.map (fun i => if i.id == it'.id then it' else i) = l := by
  induction l with
  | nil => rfl
  | cons hd tl ih =>
    rw [List.map_cons, if_neg (by simp [h hd (by simp)])]
    rw [ih (fun x hx => h x (by simp [hx]))]

/-- `Save` on a split list rewrites exactly the selected row. -/
theorem map_save_split (l₁ l₂ : List CartItem) (it it' : CartItem)
    (hid : it'.id = it.id)
    (h₁ : ∀ x ∈ l₁, x.id ≠ it.id) (h₂ : ∀ x ∈ l₂, x.id ≠ it.id) :
    (l₁ ++ it :: l₂).map (fun i => if i.id == it'.id then it' else i) =
      l₁ ++ it' :: l₂ := by
  rw [List.map_append, List.map_cons]
  rw [map_keep_of_ne l₁ it' (fun x hx => by rw [hid]; exact h₁ x hx)]
  rw [map_keep_of_ne l₂ it' (fun x hx => by rw [hid]; exact h₂ x hx)]
  rw [if_pos (by simp [hid])]

/-- `Delete` on a split list removes exactly the selected row. -/
theorem filter_delete_split (l₁ l₂ : List CartItem) (it : CartItem)
    (h₁ : ∀ x ∈ l₁, x.id ≠ it.id) (h₂ : ∀ x ∈ l₂, x.id ≠ it.id) :
    (l₁ ++ it :: l₂).filter (fun i => !(i.id == it.id)) = l₁ ++ l₂ := by
  rw [List.filter_append, List.filter_cons]
  have e1 : l₁.filter (fun i => !(i.id == it.id)) = l₁ :=
    List.filter_eq_self.mpr (fun x hx => by simp [h₁ x hx])
  have e2 : l₂.filter (fun i => !(i.id == it.id)) = l₂ :=
    List.filter_eq_self.mpr (fun x hx => by simp [h₂ x hx])
  rw [e1, e2]
  simp

end CartModel

namespace CartModel

/-- C2: adding a product that the open cart already carries (as the unique
line item `it` for that product, under unique primary keys) merges into
that line: the call succeeds, and afterwards the cart still has exactly
one line item for the product, with quantity incremented by `q` and the
previously stored unit price (the new `p` argument is discarded). -/
theorem addItem_merges (s : Store) (cid : Nat) (pn : String) (q : Int) (p : ℚ)
    (cart : Cart) (it : CartItem)
    (hfc : findCart s cid = some cart) (hop : cart.status = StatusOpen)
    (hone : s.items.filter (fun i => i.cartID == cid && i.productName == pn) = [it])
    (hnd : (s.items.map (fun i => i.id)).Nodup) :
    ∃ s1, AddCartItem s cid pn q p = .ok s1 ∧
      s1.items.filter (fun i => i.cartID == cid && i.productName == pn) =
        [{ it with quantity := it.quantity + q }] := by
  have hfi : findItemByProduct s cid pn = some it :=
    find_of_filter_singleton _ _ _ hone
  have hmem : it ∈ s.items :=
    List.mem_of_mem_filter (hone ▸ List.mem_singleton_self it)
  have hpred : (it.cartID == cid && it.productName == pn) = true := by
    have hfi2 := hfi
    rw [findItemByProduct] at hfi2
    exact List.find?_some
      (p := fun (i : CartItem) => i.cartID == cid && i.productName == pn) hfi2
  obtain ⟨l₁, l₂, hsplit, h₁, h₂⟩ := exists_split_of_mem_nodup s.items it hmem hnd
  refine ⟨updateCartTotal (saveItem s { it with quantity := it.quantity + q }) cid,
    ?_, ?_⟩
  · rw [AddCartItem]
    simp only [hfc]
    rw [if_neg (by simp [hop, StatusOpen])]
    simp only [hfi]
  · have hitems : (updateCartTotal
        (saveItem s { it with quantity := it.quantity + q }) cid).items =
        l₁ ++ { it with quantity := it.quantity + q } :: l₂ := by
      rw [updateCartTotal_items, saveItem]
      show s.items.map _ = _
      rw [hsplit]
      exact map_save_split l₁ l₂ it _ rfl h₁ h₂
    rw [hitems]
    have hflt : (l₁ ++ it :: l₂).filter
        (fun i => i.cartID == cid && i.productName == pn) = [it] := by
      rw [← hsplit]
      exact hone
    rw [List.filter_append, List.filter_cons, if_pos hpred] at hflt
    have hnil₁ : l₁.filter (fun i => i.cartID == cid && i.productName == pn) = [] := by
      cases hc : l₁.filter (fun i => i.cartID == cid && i.productName == pn) with
      | nil => rfl
      | cons a as =>
        rw [hc] at hflt
        have := congrArg List.length hflt
        simp at this
    rw [hnil₁] at hflt
    simp only [List.nil_append, List.cons.injEq] at hflt
    rw [List.filter_append, List.filter_cons, hnil₁]
    rw [if_pos (by simpa using hpred), hflt.2]
    simp

/-- Witness for C2: the spec's shoe scenario.  Starting from the cart that
already holds two shoes at price 10, adding three more shoes yields one
shoe line with quantity 5 and price 10, and the cart total becomes 50. -/
theorem addItem_merges_witness :
    (∃ s1, AddCartItem storeShoes2 1 "shoe" 3 10 = .ok s1 ∧
      s1.items.filter (fun i => i.cartID == 1 && i.productName == "shoe") =
        [{ id := 1, cartID := 1, productName := "shoe",
           quantity := 2 + 3, price := 10 }]) ∧
    AddCartItem storeShoes2 1 "shoe" 3 10 = .ok storeShoes5 :=
  ⟨addItem_merges storeShoes2 1 "shoe" 3 10 ⟨1, "s", StatusOpen, 20⟩
      ⟨1, 1, "shoe", 2, 10⟩ rfl rfl rfl (by decide),
   by norm_num [AddCartItem, storeShoes2, storeShoes5, findCart, findItemByProduct,
     saveItem, updateCartTotal, cartTotalSum, StatusOpen]⟩

end CartModel

namespace CartModel

/-- `updateCartTotal` leaves the item table untouched, hence preserves the
item invariant. -/
theorem itemsOK_updateCartTotal (t : Store) (cid : Nat) (h : ItemsOK t) :
    ItemsOK (updateCartTotal t cid) := h

/-- A successful `AddCartItem` with positive quantity preserves the item
invariant: a merge only grows a positive quantity, an insert adds a fresh
row with a product name not yet present in the cart. -/
theorem itemsOK_addCartItem (t : Store) (cid : Nat) (pn : String) (q : Int)
    (p : ℚ) (s1 : Store) (hok : AddCartItem t cid pn q p = .ok s1)
    (h : ItemsOK t) (hq : 1 ≤ q) : ItemsOK s1 := by
  obtain ⟨hq1, hpw, hnd, hbd⟩ := h
  rw [AddCartItem] at hok
  split at hok
  · exact absurd hok (by simp)
  · split at hok
    · exact absurd hok (by simp)
    · split at hok
      · rename_i it hfi
        simp only [Except.ok.injEq] at hok
        rw [← hok]
        refine itemsOK_updateCartTotal _ cid ?_
        have hmem : it ∈ t.items := by
          have h2 := hfi
          rw [findItemByProduct] at h2
          exact List.mem_of_find?_eq_some h2
        obtain ⟨l₁, l₂, hsplit, h₁, h₂⟩ :=
          exists_split_of_mem_nodup t.items it hmem hnd
        have hitems : (saveItem t { it with quantity := it.quantity + q }).items =
            l₁ ++ { it with quantity := it.quantity + q } :: l₂ := by
          rw [saveItem]
          show t.items.map _ = _
          rw [hsplit]
          exact map_save_split l₁ l₂ it _ rfl h₁ h₂
        refine ⟨?_, ?_, ?_, ?_⟩
        · intro i hi
          rw [hitems] at hi
          rcases List.mem_append.mp hi with hi1 | hi2
          · exact hq1 i (by rw [hsplit]; exact List.mem_append_left _ hi1)
          · rcases List.mem_cons.mp hi2 with rfl | hi3
            · show 1 ≤ it.quantity + q
              have := hq1 it hmem
              omega
            · refine hq1 i ?_
              rw [hsplit]
              exact List.mem_append_right _ (List.mem_cons_of_mem _ hi3)
        · show ((saveItem t _).items).Pairwise _
          rw [hitems]
          rw [hsplit] at hpw
          rw [List.pairwise_append] at hpw ⊢
          obtain ⟨hp1, hp2, hcross⟩ := hpw
          rw [List.pairwise_cons] at hp2 ⊢
          refine ⟨hp1, ⟨fun a ha => hp2.1 a ha, hp2.2⟩, ?_⟩
          intro a ha b hb
          rcases List.mem_cons.mp hb with rfl | hb2
          · exact hcross a ha it (List.mem_cons_self _ _)
          · exact hcross a ha b (List.mem_cons_of_mem _ hb2)
        · show (((saveItem t _).items).map _).Nodup
          rw [hitems]
          have hids : (l₁ ++ { it with quantity := it.quantity + q } :: l₂).map
              (fun i => i.id) = (l₁ ++ it :: l₂).map (fun i => i.id) := by
            simp only [List.map_append, List.map_cons]
          rw [hids, ← hsplit]
          exact hnd
        · intro i hi
          rw [hitems] at hi
          show i.id < t.nextItemID
          rcases List.mem_append.mp hi with hi1 | hi2
          · exact hbd i (by rw [hsplit]; exact List.mem_append_left _ hi1)
          · rcases List.mem_cons.mp hi2 with rfl | hi3
            · show it.id < t.nextItemID
              exact hbd it hmem
            · refine hbd i ?_
              rw [hsplit]
              exact List.mem_append_right _ (List.mem_cons_of_mem _ hi3)
      · rename_i hfi
        simp only [Except.ok.injEq] at hok
        rw [← hok]
        refine itemsOK_updateCartTotal _ cid ?_
        have hnomatch : ∀ a ∈ t.items, ¬(a.cartID = cid ∧ a.productName = pn) := by
          have h2 := hfi
          rw [findItemByProduct, List.find?_eq_none] at h2
          intro a ha hcontra
          exact h2 a ha (by simp [hcontra.1, hcontra.2])
        refine ⟨?_, ?_, ?_, ?_⟩
        · intro i hi
          rcases List.mem_append.mp hi with hi1 | hi2
          · exact hq1 i hi1
          · rw [List.mem_singleton] at hi2
            rw [hi2]
            exact hq
        · show (t.items ++ [_]).Pairwise _
          rw [List.pairwise_append]
          refine ⟨hpw, by simp, ?_⟩
          intro a ha b hb
          rw [List.mem_singleton] at hb
          rw [hb]
          intro hcontra
          exact hnomatch a ha ⟨hcontra.1, hcontra.2⟩
        · show ((t.items ++ [_]).map _).Nodup
          rw [List.map_append, List.nodup_append]
          refine ⟨hnd, by simp, ?_⟩
          intro x hx hx2
          simp only [List.map_cons, List.map_nil, List.mem_singleton] at hx2
          simp only [List.mem_map] at hx
          obtain ⟨a, ha, rfl⟩ := hx
          have := hbd a ha
          omega
        · intro i hi
          show i.id < t.nextItemID + 1
          rcases List.mem_append.mp hi with hi1 | hi2
          · have := hbd i hi1
            omega
          · rw [List.mem_singleton] at hi2
            rw [hi2]
            show t.nextItemID < t.nextItemID + 1
            omega

/-- A successful `RemoveCartItem` preserves the item invariant: deletion is
a sublist operation. -/
theorem itemsOK_removeCartItem (t : Store) (cid iid : Nat) (s1 : Store)
    (hok : RemoveCartItem t cid iid = .ok s1) (h : ItemsOK t) : ItemsOK s1 := by
  obtain ⟨hq1, hpw, hnd, hbd⟩ := h
  rw [RemoveCartItem] at hok
  split at hok
  · exact absurd hok (by simp)
  · split at hok
    · exact absurd hok (by simp)
    · split at hok
      · exact absurd hok (by simp)
      · rename_i item hfi
        simp only [Except.ok.injEq] at hok
        rw [← hok]
        refine itemsOK_updateCartTotal _ cid ?_
        have hsub : (deleteItem t item.id).items.Sublist t.items :=
          List.filter_sublist _
        refine ⟨?_, ?_, ?_, ?_⟩
        · intro i hi
          exact hq1 i (hsub.subset hi)
        · exact List.Pairwise.sublist hsub hpw
        · exact List.Nodup.sublist (hsub.map (fun i => i.id)) hnd
        · intro i hi
          show i.id < t.nextItemID
          exact hbd i (hsub.subset hi)

/-- `GetOrCreateCart` never touches the item table. -/
theorem itemsOK_getOrCreate (t : Store) (sid : String) (h : ItemsOK t) :
    ItemsOK (GetOrCreateCart t sid).1 := by
  rw [GetOrCreateCart]
  cases hf : findOpenCartBySession t sid with
  | some c => exact h
  | none => exact h

/-- C6: the item invariant — every stored quantity is at least 1 and
product names are unique within a cart (duplicate adds merge by summing
quantities) — is preserved by every public operation.  The quantity
hypothesis `1 ≤ q` is what the HTTP handler's validation guarantees
(`quantity < 1` is rejected before the repository is called). -/
theorem item_invariant_preserved (s : Store) (cid : Nat) (pn : String)
    (q : Int) (p : ℚ) (iid : Nat) (sid : String)
    (hs : ItemsOK s) (hq : 1 ≤ q) :
    ItemsOK (runAddCartItem s cid pn q p) ∧
    ItemsOK (runRemoveCartItem s cid iid) ∧
    ItemsOK (GetOrCreateCart s sid).1 := by
  refine ⟨?_, ?_, itemsOK_getOrCreate s sid hs⟩
  · rw [runAddCartItem]
    cases hr : AddCartItem s cid pn q p with
    | error e => exact hs
    | ok s1 => exact itemsOK_addCartItem s cid pn q p s1 hr hs hq
  · rw [runRemoveCartItem]
    cases hr : RemoveCartItem s cid iid with
    | error e => exact hs
    | ok s1 => exact itemsOK_removeCartItem s cid iid s1 hr hs

/-- Witness for C6 at the two-shoes fixture. -/
theorem item_invariant_preserved_witness :
    ItemsOK (runAddCartItem storeShoes2 1 "shoe" 3 10) ∧
    ItemsOK (runRemoveCartItem storeShoes2 1 1) ∧
    ItemsOK (GetOrCreateCart storeShoes2 "abc").1 :=
  item_invariant_preserved storeShoes2 1 "shoe" 3 10 1 "abc"
    ⟨by decide, by decide, by decide, by decide⟩ (by decide)

end CartModel

namespace CartModel

/-! ## Frame lemmas: operations on one cart do not touch other carts -/

/-- A keyed total update leaves cart rows with other ids untouched. -/
theorem filter_map_update_carts (l : List Cart) (x : ℚ) (cid cid' : Nat)
    (hne : cid' ≠ cid) :
    (l.map (fun c => if c.id == cid then { c with total := x } else c)).filter
      (fun c => c.id == cid') = l.filter (fun c => c.id == cid') := by
  rw [List.filter_map]
  have heq : List.filter ((fun c => c.id == cid') ∘
      (fun c => if c.id == cid then { c with total := x } else c)) l =
      List.filter (fun c => c.id == cid') l := by
    refine List.filter_congr ?_
    intro c hc
    by_cases h0 : c.id = cid <;> simp [Function.comp, h0]
  rw [heq]
  have hfix : ∀ c ∈ l.filter (fun c => c.id == cid'),
      (fun c => if c.id == cid then { c with total := x } else c) c = c := by
    intro c hc
    have hcc : c.id = cid' := by simpa using List.of_mem_filter hc
    show (if (c.id == cid) = true then ({ c with total := x } : Cart) else c) = c
    rw [if_neg (by simp [hcc]; exact hne)]
  rw [List.map_congr_left hfix, List.map_id']

/-- `updateCartTotal` on one cart preserves the rows of any other cart. -/
theorem filter_carts_updateCartTotal (t : Store) (cid cid' : Nat)
    (hne : cid' ≠ cid) :
    (updateCartTotal t cid).carts.filter (fun c => c.id == cid') =
      t.carts.filter (fun c => c.id == cid') :=
  filter_map_update_carts t.carts (cartTotalSum t cid) cid cid' hne

/-- Filtering for another cart skips a row of the mutated cart. -/
theorem filter_other_cons (l₁ l₂ : List CartItem) (a : CartItem) (cid' : Nat)
    (ha : (a.cartID == cid') = false) :
    (l₁ ++ a :: l₂).filter (fun i => i.cartID == cid') =
      l₁.filter (fun i => i.cartID == cid') ++
        l₂.filter (fun i => i.cartID == cid') := by
  rw [List.filter_append, List.filter_cons]
  rw [if_neg (by simp [ha])]

/-- `AddCartItem` never changes another cart's rows or items (frame). -/
theorem frame_addCartItem (s : Store) (cid : Nat) (pn : String) (q : Int)
    (p : ℚ) (cid' : Nat) (hnd : (s.items.map (fun i => i.id)).Nodup)
    (hne : cid' ≠ cid) :
    (runAddCartItem s cid pn q p).carts.filter (fun c => c.id == cid') =
      s.carts.filter (fun c => c.id == cid') ∧
    (runAddCartItem s cid pn q p).items.filter (fun i => i.cartID == cid') =
      s.items.filter (fun i => i.cartID == cid') := by
  rw [runAddCartItem]
  cases hr : AddCartItem s cid pn q p with
  | error e => exact ⟨rfl, rfl⟩
  | ok s1 =>
    show s1.carts.filter _ = _ ∧ s1.items.filter _ = _
    rw [AddCartItem] at hr
    split at hr
    · exact absurd hr (by simp)
    · split at hr
      · exact absurd hr (by simp)
      · split at hr
        · rename_i it hfi
          simp only [Except.ok.injEq] at hr
          rw [← hr]
          have hmem : it ∈ s.items := by
            have h2 := hfi
            rw [findItemByProduct] at h2
            exact List.mem_of_find?_eq_some h2
          have hcart : it.cartID = cid := by
            have h2 := hfi
            rw [findItemByProduct] at h2
            have h3 := List.find?_some
              (p := fun (i : CartItem) => i.cartID == cid && i.productName == pn) h2
            simp only [Bool.and_eq_true, beq_iff_eq] at h3
            exact h3.1
          have hcf : (it.cartID == cid') = false := by
            simp only [beq_eq_false_iff_ne, ne_eq, hcart]
            exact fun hh => hne hh.symm
          obtain ⟨l₁, l₂, hsplit, h₁, h₂⟩ :=
            exists_split_of_mem_nodup s.items it hmem hnd
          constructor
          · exact filter_carts_updateCartTotal _ cid cid' hne
          · show ((saveItem s _).items).filter _ = _
            rw [saveItem]
            show (s.items.map _).filter _ = _
            rw [hsplit,
              map_save_split l₁ l₂ it { it with quantity := it.quantity + q } rfl h₁ h₂]
            have hcf2 : (({ it with quantity := it.quantity + q } : CartItem).cartID ==
                cid') = false := hcf
            rw [filter_other_cons l₁ l₂ _ cid' hcf2,
              filter_other_cons l₁ l₂ it cid' hcf]
        · rename_i hfi
          simp only [Except.ok.injEq] at hr
          rw [← hr]
          constructor
          · exact filter_carts_updateCartTotal _ cid cid' hne
          · show ((createItem s cid pn q p).items).filter _ = _
            rw [createItem]
            show (s.items ++ [_]).filter _ = _
            rw [List.filter_append, List.filter_cons]
            rw [if_neg (by simp; exact fun hh => hne hh.symm)]
            simp

/-- `RemoveCartItem` never changes another cart's rows or items (frame). -/
theorem frame_removeCartItem (s : Store) (cid iid : Nat) (cid' : Nat)
    (hnd : (s.items.map (fun i => i.id)).Nodup) (hne : cid' ≠ cid) :
    (runRemoveCartItem s cid iid).carts.filter (fun c => c.id == cid') =
      s.carts.filter (fun c => c.id == cid') ∧
    (runRemoveCartItem s cid iid).items.filter (fun i => i.cartID == cid') =
      s.items.filter (fun i => i.cartID == cid') := by
  rw [runRemoveCartItem]
  cases hr : RemoveCartItem s cid iid with
  | error e => exact ⟨rfl, rfl⟩
  | ok s1 =>
    show s1.carts.filter _ = _ ∧ s1.items.filter _ = _
    rw [RemoveCartItem] at hr
    split at hr
    · exact absurd hr (by simp)
    · split at hr
      · exact absurd hr (by simp)
      · split at hr
        · exact absurd hr (by simp)
        · rename_i item hfi
          simp only [Except.ok.injEq] at hr
          rw [← hr]
          have hmem : item ∈ s.items := by
            have h2 := hfi
            rw [findItem] at h2
            exact List.mem_of_find?_eq_some h2
          have hcart : item.cartID = cid := by
            have h2 := hfi
            rw [findItem] at h2
            have h3 := List.find?_some
              (p := fun (i : CartItem) => i.cartID == cid && i.id == iid) h2
            simp only [Bool.and_eq_true, beq_iff_eq] at h3
            exact h3.1
          have hcf : (item.cartID == cid') = false := by
            simp only [beq_eq_false_iff_ne, ne_eq, hcart]
            exact fun hh => hne hh.symm
          obtain ⟨l₁, l₂, hsplit, h₁, h₂⟩ :=
            exists_split_of_mem_nodup s.items item hmem hnd
          constructor
          · exact filter_carts_updateCartTotal _ cid cid' hne
          · show ((deleteItem s item.id).items).filter _ = _
            rw [deleteItem]
            show (s.items.filter _).filter _ = _
            rw [hsplit, filter_delete_split l₁ l₂ item h₁ h₂]
            rw [List.filter_append, filter_other_cons l₁ l₂ item cid' hcf]

end CartModel

namespace CartModel

/-- C10: item lookups are scoped to the owning cart, and mutating one cart
never touches another.  `GetCartItem` only returns items owned by the
queried cart; `RemoveCartItem` reports `item not found` for an item id
that belongs to a different cart; and (under unique item primary keys)
`AddCartItem` and `RemoveCartItem` on cart `cid` leave the cart rows and
items of every other cart `cid'` unchanged. -/
theorem cart_scoping (s : Store) (cid iid cid' : Nat) (pn : String)
    (q : Int) (p : ℚ) :
    (∀ it, GetCartItem s cid iid = some it → it.cartID = cid) ∧
    (∀ cart, findCart s cid = some cart → cart.status = StatusOpen →
      (∀ it ∈ s.items, it.id = iid → it.cartID ≠ cid) →
      RemoveCartItem s cid iid = .error "item not found") ∧
    ((s.items.map (fun i => i.id)).Nodup → cid' ≠ cid →
      ((runAddCartItem s cid pn q p).carts.filter (fun c => c.id == cid') =
        s.carts.filter (fun c => c.id == cid')) ∧
      ((runAddCartItem s cid pn q p).items.filter (fun i => i.cartID == cid') =
        s.items.filter (fun i => i.cartID == cid')) ∧
      ((runRemoveCartItem s cid iid).carts.filter (fun c => c.id == cid') =
        s.carts.filter (fun c => c.id == cid')) ∧
      ((runRemoveCartItem s cid iid).items.filter (fun i => i.cartID == cid') =
        s.items.filter (fun i => i.cartID == cid'))) := by
  refine ⟨?_, ?_, ?_⟩
  · intro it h
    rw [GetCartItem, findItem] at h
    have h3 := List.find?_some
      (p := fun (i : CartItem) => i.cartID == cid && i.id == iid) h
    simp only [Bool.and_eq_true, beq_iff_eq] at h3
    exact h3.1
  · intro cart hfc hop hforeign
    have hfi : findItem s cid iid = none := by
      rw [findItem, List.find?_eq_none]
      intro i hi hp
      simp only [Bool.and_eq_true, beq_iff_eq] at hp
      exact hforeign i hi hp.2 hp.1
    rw [RemoveCartItem]
    simp only [hfc]
    rw [if_neg (by simp [hop, StatusOpen])]
    simp only [hfi]
  · intro hnd hne
    obtain ⟨ha1, ha2⟩ := frame_addCartItem s cid pn q p cid' hnd hne
    obtain ⟨hr1, hr2⟩ := frame_removeCartItem s cid iid cid' hnd hne
    exact ⟨ha1, ha2, hr1, hr2⟩

/-- Witness for C10 at the two-carts fixture: item 7 belongs to cart 2, so
removing it through cart 1 fails, and removing it from cart 2 leaves
cart 1 visible data unchanged (instantiated via the frame conjunct). -/
theorem cart_scoping_witness :
    RemoveCartItem storeTwoCarts 1 7 = .error "item not found" ∧
    (runRemoveCartItem storeTwoCarts 1 7).items.filter (fun i => i.cartID == 2) =
      storeTwoCarts.items.filter (fun i => i.cartID == 2) :=
  ⟨(cart_scoping storeTwoCarts 1 7 2 "shoe" 1 10).2.1 ⟨1, "s", StatusOpen, 0⟩
      rfl rfl (by decide),
   ((cart_scoping storeTwoCarts 1 7 2 "shoe" 1 10).2.2 (by decide)
      (by decide)).2.2.2⟩

end CartModel
